import Mathlib

/-!
Verification development for the `yunhu2onebot12` event converter
(`yunhu2onebot12/convert.py`).  The Python module is embedded shallowly:
Python dict/list/str/int/bool/None values become the inductive `JVal`,
dictionary access with defaults becomes `jget`/`jgetD`, in-place dict
mutation (`d[k] = v`, `d.update({...})`) becomes the functional updates
`jset`/`jupdate`, and the `Converter.convert` method together with its
per-category handlers becomes the function `convert` below.  The two
impure defaults of the source (`time.time()*1000` and `str(uuid.uuid4())`)
are supplied by the caller through `ConvCtx`.
-/

/-- Dynamic values: the embedding of the Python values handled by the
converter (`None`, `bool`, `int`, `str`, `list`, `dict`).  Dictionaries
are association lists in insertion order, matching Python dict ordering. -/
inductive JVal where
  | null : JVal
  | bool : Bool → JVal
  | num : Int → JVal
  | str : String → JVal
  | arr : List JVal → JVal
  | obj : List (String × JVal) → JVal

/-- First binding of a key in an association list (Python dicts cannot
hold duplicate keys, so first-match lookup is exact). -/
def alist_get (k : String) : List (String × JVal) → Option JVal
  | [] => none
  | (k', v) :: rest => if k' = k then some v else alist_get k rest

/-- Update the binding of `k` in place, or append it (Python
`d[k] = v` keeps the position of an existing key and appends new keys). -/
def alist_set (k : String) (x : JVal) : List (String × JVal) → List (String × JVal)
  | [] => [(k, x)]
  | (k', v) :: rest => if k' = k then (k', x) :: rest else (k', v) :: alist_set k x rest

/-- Embedding of `d.get(k)` on a dict: `none` when the key is absent.
On non-dict values it returns `none`; the source only applies `.get` to
dictionaries on the paths the theorems below talk about. -/
def jget : JVal → String → Option JVal
  | .obj fs, k => alist_get k fs
  | _, _ => none

/-- Embedding of `d.get(k, default)`. -/
def jgetD (v : JVal) (k : String) (d : JVal) : JVal :=
  (jget v k).getD d

/-- Embedding of `d[k] = x` (functionally).  Non-dict receivers are
returned unchanged; the source never assigns into a non-dict. -/
def jset (o : JVal) (k : String) (x : JVal) : JVal :=
  match o with
  | .obj fs => .obj (alist_set k x fs)
  | v => v

/-- Embedding of `d.update({...})`: left-to-right key assignment. -/
def jupdate (o : JVal) : List (String × JVal) → JVal
  | [] => o
  | (k, v) :: rest => jupdate (jset o k v) rest

/-- Python truthiness for the values of `JVal`. -/
def jfalsy : JVal → Bool
  | .null => true
  | .bool b => !b
  | .num n => n == 0
  | .str s => s == ""
  | .arr l => l.isEmpty
  | .obj l => l.isEmpty

/-- Python `v == "lit"` for a string literal: only equal strings compare
equal, every other value compares unequal. -/
def jstr_eq (v : JVal) (s : String) : Bool :=
  match v with
  | .str t => t == s
  | _ => false

/-- Embedding of `str(v)` for the primitive values the converter passes
to `str()` / f-strings / `"".join`.  Container reprs are not modelled
(the claims never exercise them): they map to `""`, where CPython would
render a bracketed repr. -/
def jstr_of : JVal → String
  | .str s => s
  | .num n => toString n
  | .bool b => if b then "True" else "False"
  | .null => "None"
  | .arr _ => ""
  | .obj _ => ""

/-- Embedding of `int(v)` on the values that can reach the timestamp
division.  Python `bool` is an `int` subtype (`True == 1`); other
non-numeric values would raise `TypeError` in the source and map to 0
here (never reached by the claims). -/
def jint_of : JVal → Int
  | .num n => n
  | .bool b => if b then 1 else 0
  | _ => 0

/-- Embedding of `"".join(parts)` (empty separator). -/
def str_join : List String → String
  | [] => ""
  | [s] => s
  | s :: rest => s ++ str_join rest

/-- Embedding of Python `str.replace(pat, rep)` at the character-list
level: every non-overlapping occurrence of `pat` is replaced, scanning
left to right.  The scan performs at most one step per input character,
so the fuel `s.length` supplied by `pyReplaceS` never runs out.  The
empty-pattern special case of CPython is not needed: the converter's
pattern always starts with `'/'`. -/
def pyReplaceAux (pat rep : List Char) : Nat → List Char → List Char
  | _, [] => []
  | 0, s => s
  | fuel + 1, c :: cs =>
    if pat ≠ [] ∧ pat.isPrefixOf (c :: cs) then
      rep ++ pyReplaceAux pat rep fuel ((c :: cs).drop pat.length)
    else
      c :: pyReplaceAux pat rep fuel cs

/-- Embedding of `s.replace(pat, rep)` on strings. -/
def pyReplaceS (s pat rep : String) : String :=
  ⟨pyReplaceAux pat.data rep.data s.data.length s.data⟩

/-- The characters removed by Python `str.strip()` (the ASCII whitespace
set; the rarely seen Unicode whitespace characters are not modelled). -/
def py_space (c : Char) : Bool :=
  c == ' ' || c == '\t' || c == '\n' || c == '\r' || c == '\x0b' || c == '\x0c'

/-- Embedding of Python `s.strip()`: leading and trailing whitespace
removed, internal whitespace kept. -/
def py_strip (s : String) : String :=
  ⟨((s.data.dropWhile py_space).reverse.dropWhile py_space).reverse⟩

/-- Round `a / b` to the nearest integer with ties to even — the
rounding IEEE-754 round-to-nearest-even performs at significand
granularity. -/
def roundNE_div (a b : Nat) : Nat :=
  let q := a / b
  if 2 * (a % b) < b then q
  else if b < 2 * (a % b) then q + 1
  else if q % 2 = 0 then q else q + 1

/-- Floor of the base-2 logarithm, by fuel recursion (`fuel = n` always
suffices: the argument halves at every step, so at most `log2 n` steps
run). -/
def ilog2_fuel : Nat → Nat → Nat
  | 0, _ => 0
  | fuel + 1, n => if 2 ≤ n then ilog2_fuel fuel (n / 2) + 1 else 0

/-- `⌊log2 n⌋` for `n ≥ 1` (and 0 at 0). -/
def nat_ilog2 (n : Nat) : Nat := ilog2_fuel n n

/-- The smallest shift `j` with `1000 ≤ m * 2^j`, locating the binade of
a quotient `m / 1000 < 1`; for `1 ≤ m < 1000` the needed shift is at
most 10, so `fuel = 10` suffices. -/
def shift_for : Nat → Nat → Nat
  | _, 0 => 0
  | m, fuel + 1 => if 1000 ≤ m then 0 else shift_for (2 * m) fuel + 1

/-- Faithful model of CPython's `int(m / 1000)` for a nonnegative int
`m`: `int.__truediv__` produces the correctly-rounded IEEE-754 double of
the exact rational `m / 1000` (round to nearest, ties to even), and
`int(...)` truncates toward zero.  The quotient's binade exponent `f`
is located first — `nat_ilog2` of the floored quotient for quotients
`≥ 1` (exact, since `2^f ≤ m/1000` iff `2^f ≤ ⌊m/1000⌋`), a `shift_for`
upshift for quotients below 1 — then the significand is rounded to 53
bits by `roundNE_div` (landing in `[2^52, 2^53]`; a carry to `2^53`
needs no renormalisation since only the value `s * 2^(f-52)` is used),
and that value is truncated.  Exponent overflow (`m` around `2^1034`
and beyond, where CPython raises `OverflowError`) is not modelled. -/
def float_div1000_trunc (m : Nat) : Nat :=
  if m = 0 then 0
  else if m < 1000 then
    roundNE_div (m * 2 ^ (52 + shift_for m 10)) 1000 / 2 ^ (52 + shift_for m 10)
  else if nat_ilog2 (m / 1000) ≤ 52 then
    roundNE_div (m * 2 ^ (52 - nat_ilog2 (m / 1000))) 1000
      / 2 ^ (52 - nat_ilog2 (m / 1000))
  else
    roundNE_div m (1000 * 2 ^ (nat_ilog2 (m / 1000) - 52))
      * 2 ^ (nat_ilog2 (m / 1000) - 52)

/-- `int(n / 1000)` for a Python int of either sign: the float division
is sign-symmetric and `int()` truncates toward zero. -/
def py_int_div1000 (n : Int) : Int :=
  if n < 0 then -(float_div1000_trunc (-n).toNat : Int)
  else (float_div1000_trunc n.toNat : Int)

/-- Embedding of Python `s.split(".")` for a one-character separator,
at the character-list level. -/
def split_chars (sep : Char) : List Char → List (List Char)
  | [] => [[]]
  | c :: cs =>
    match split_chars sep cs with
    | [] => [[c]]
    | g :: gs => if c = sep then [] :: g :: gs else (c :: g) :: gs

/-- Embedding of `mapped_type.split(".")`. -/
def splitOnDot (s : String) : List String :=
  (split_chars '.' s.data).map String.mk

/-- Embedding of `"." in mapped_type` (one-character containment). -/
def strContainsChar (s : String) (c : Char) : Bool :=
  s.data.contains c

/-- Embedding of `pat in s` (substring containment) for strings. -/
def has_substr_list (pat : List Char) : List Char → Bool
  | [] => pat.isEmpty
  | c :: cs => pat.isPrefixOf (c :: cs) || has_substr_list pat cs

/-- Embedding of Python `pat in s` on strings. -/
def strContains (s pat : String) : Bool :=
  has_substr_list pat.data s.data

/-- The static event-type classification table (`self.event_map`). -/
def event_map_table : List (String × String) :=
  [("message.receive.normal", "message"),
   ("message.receive.instruction", "message"),
   ("bot.followed", "notice.friend_increase"),
   ("bot.unfollowed", "notice.friend_decrease"),
   ("group.join", "notice.group_member_increase"),
   ("group.leave", "notice.group_member_decrease"),
   ("button.report.inline", "notice.yunhu_button_click"),
   ("bot.shortcut.menu", "notice.yunhu_shortcut_menu"),
   ("bot.setting", "notice.yunhu_bot_setting")]

/-- Lookup in a string-to-string table with `""` default,
embedding `self.event_map.get(event_type, "")`. -/
def smap_get : List (String × String) → String → String
  | [], _ => ""
  | (k, v) :: rest, s => if k = s then v else smap_get rest s

/-- `self.event_map.get(event_type, "")`: a non-string key matches no
table entry (Python dict lookup by value equality). -/
def event_map_lookup : JVal → String
  | .str s => smap_get event_map_table s
  | _ => ""

/-- The impure defaults of `convert`: `time.time() * 1000` at call time
and the freshly generated `str(uuid.uuid4())`. -/
structure ConvCtx where
  nowMs : Int
  freshId : String

/-- Embedding of `int(header.get("eventTime", time.time() * 1000) / 1000)`:
correctly-rounded double division by 1000 followed by `int()`
truncation, via `py_int_div1000`.  The clock default `time.time()*1000`
(a float) is approximated by the caller-supplied integer `nowMs`. -/
def time_field (header : JVal) (nowMs : Int) : Int :=
  py_int_div1000 (jint_of (jgetD header "eventTime" (.num nowMs)))

/-- The pre-seeded base event skeleton (`onebot_event` literal in
`convert`). -/
def base_event (ctx : ConvCtx) (data header : JVal) : JVal :=
  .obj [("id", jgetD header "eventId" (.str ctx.freshId)),
        ("time", .num (time_field header ctx.nowMs)),
        ("type", .str ""),
        ("detail_type", .str ""),
        ("sub_type", .str ""),
        ("platform", .str "yunhu"),
        ("self", .obj [("platform", .str "yunhu"), ("user_id", .str "")]),
        ("user_nickname", .str ""),
        ("yunhu_raw", data)]

/-- Embedding of `_build_media_data`'s `media_map` table; the source
raises `KeyError` for a kind outside the table, which its callers never
pass. -/
def media_map : String → String × String × List String
  | "image" => ("imageUrl", "imageName", ["imageWidth", "imageHeight"])
  | "video" => ("videoUrl", "videoName", ["videoWidth", "videoHeight", "videoDuration"])
  | "file" => ("fileUrl", "fileName", ["fileSize"])
  | _ => ("", "", [])

/-- Embedding of `_build_media_data`. -/
def build_media_data (content : JVal) (media_type : String) : JVal :=
  let keys := media_map media_type
  let url_key := keys.1
  let name_key := keys.2.1
  let extra_keys := keys.2.2
  let media_data : List (String × JVal) :=
    [("file_id", jgetD content url_key (.str "")),
     ("url", jgetD content url_key (.str "")),
     ("file_name", jgetD content name_key (.str ""))]
  if media_type = "image" then
    .obj (media_data ++
      [("width", jgetD content (extra_keys.getD 0 "") (.num 0)),
       ("height", jgetD content (extra_keys.getD 1 "") (.num 0))])
  else if media_type = "video" then
    .obj (media_data ++
      [("width", jgetD content (extra_keys.getD 0 "") (.num 0)),
       ("height", jgetD content (extra_keys.getD 1 "") (.num 0)),
       ("duration", jgetD content (extra_keys.getD 2 "") (.num 0))])
  else if media_type = "file" then
    .obj (media_data ++ [("size", jgetD content (extra_keys.getD 0 "") (.num 0))])
  else
    .obj media_data

/-- The list of option labels kept for a checkbox control:
`[v for i, v in enumerate(values) if i < len(selected) and selected[i]]`. -/
def checkbox_selected (ss vs : List JVal) : List JVal :=
  (vs.enum.filter (fun p => decide (p.1 < ss.length) && !jfalsy (ss.getD p.1 .null))).map
    Prod.snd

/-- The checkbox `field_value`: `",".join(...)` over the kept labels.
Python `join` raises on non-string elements; non-strings go through
`jstr_of` here (the claims only exercise string labels). -/
def checkbox_value (ss vs : List JVal) : String :=
  ",".intercalate ((checkbox_selected ss vs).map jstr_of)

/-- The per-control `field_value` computation of `_build_form_data`'s
loop body.  Unknown control types keep the initial `""`. -/
def form_field_value (fd : JVal) : JVal :=
  let ft := jgetD fd "type" (.str "")
  if jstr_eq ft "input" then jgetD fd "value" (.str "")
  else if jstr_eq ft "switch" then .str (jstr_of (jgetD fd "value" (.bool false)))
  else if jstr_eq ft "checkbox" then
    match jgetD fd "selectValues" (.arr []), jgetD fd "selectStatus" (.arr []) with
    | .arr vs, .arr ss => .str (checkbox_value ss vs)
    | _, _ => .str ""
  else if jstr_eq ft "textarea" then jgetD fd "value" (.str "")
  else if jstr_eq ft "select" then jgetD fd "selectValue" (.str "")
  else if jstr_eq ft "radio" then jgetD fd "selectValue" (.str "")
  else .str ""

/-- One `{id, type, label, value}` record appended by
`_build_form_data`'s loop. -/
def form_field_record (kv : String × JVal) : JVal :=
  .obj [("id", .str kv.1),
        ("type", jgetD kv.2 "type" (.str "")),
        ("label", jgetD kv.2 "label" (.str "")),
        ("value", form_field_value kv.2)]

/-- Embedding of `_build_form_data`.  Iterating `form_json.items()`
requires a dict in Python; a non-dict `formJson` maps to an empty field
list here (the source would raise, a path no claim exercises). -/
def build_form_data (content message_event : JVal) : JVal :=
  let form_json := jgetD content "formJson" (.obj [])
  let fields : List JVal :=
    match form_json with
    | .obj fs => fs.map form_field_record
    | _ => []
  .obj [("id", jgetD message_event "instructionId" (.str "")),
        ("name", jgetD message_event "instructionName" (.str "")),
        ("fields", .arr fields)]

/-- The `command_data` dictionary constructed at the top of
`_build_command_data`: name and id from the message metadata, and
`args` from `content.get("text", "").replace(f"/{commandName}", "").strip()`. -/
def command_record (content message_event : JVal) : JVal :=
  .obj [("name", jgetD message_event "commandName" (.str "")),
        ("id", .str (jstr_of (jgetD message_event "commandId" (.num 0)))),
        ("args", .str (py_strip (pyReplaceS
          (jstr_of (jgetD content "text" (.str "")))
          ("/" ++ jstr_of (jgetD message_event "commandName" (.str "")))
          "")))]

/-- Embedding of `_build_command_data`.  The Python function constructs
`command_data` (and, for form content, adds a `"form"` key to it) but
ends without a `return` statement, so the call expression evaluates to
`None`. -/
def build_command_data (content message_event content_type : JVal) : JVal :=
  let command_data := command_record content message_event
  let command_data :=
    if jstr_eq content_type "form" then
      jset command_data "form" (jgetD content "formJson" (.obj []))
    else command_data
  let _ := command_data
  .null

/-- The `{"type": "text", "data": {"text": text}}` segment. -/
def text_segment (text : JVal) : JVal :=
  .obj [("type", .str "text"), ("data", .obj [("text", text)])]

/-- Embedding of `_handle_message_event`.  The `alt_message` parts are
kept as strings via `jstr_of` (Python `"".join` raises on non-string
parts; the claims only exercise string text). -/
def handle_message_event (event_type : String) (event_data bev : JVal) : JVal :=
  let msg_data := jgetD event_data "message" (.obj [])
  let sender := jgetD event_data "sender" (.obj [])
  let chat_info := jgetD event_data "chat" (.obj [])
  let content_type := jgetD msg_data "contentType" (.str "text")
  let content := jgetD msg_data "content" (.obj [])
  let segs_alts : List JVal × List String :=
    if jstr_eq content_type "text" then
      let text := jgetD content "text" (.str "")
      if jfalsy text then ([], []) else ([text_segment text], [jstr_of text])
    else if jstr_eq content_type "image" then
      let media := build_media_data content "image"
      ([.obj [("type", .str "image"), ("data", media)]],
       ["[图片:" ++ jstr_of (jgetD media "file_name" (.str "")) ++ "]"])
    else if jstr_eq content_type "video" then
      let media := build_media_data content "video"
      ([.obj [("type", .str "video"), ("data", media)]],
       ["[视频:" ++ jstr_of (jgetD media "file_name" (.str "")) ++ "]"])
    else if jstr_eq content_type "file" then
      let media := build_media_data content "file"
      ([.obj [("type", .str "file"), ("data", media)]],
       ["[文件:" ++ jstr_of (jgetD media "file_name" (.str "")) ++ "]"])
    else if jstr_eq content_type "form" then
      let form_data := build_form_data content msg_data
      ([.obj [("type", .str "yunhu_form"), ("data", form_data)]],
       ["[表单:" ++ jstr_of (jgetD form_data "name" (.str "")) ++ "]"])
    else ([], [])
  let buttons := jgetD content "buttons" .null
  let segs_alts2 :=
    if jfalsy buttons then segs_alts
    else (segs_alts.1 ++ [.obj [("type", .str "yunhu_button"),
                                ("data", .obj [("buttons", buttons)])]],
          segs_alts.2 ++ ["[按钮]"])
  let chat_type := jgetD chat_info "chatType" (.str "")
  let detail : String := if jstr_eq chat_type "bot" then "private" else "group"
  let be1 := jset bev "detail_type" (.str detail)
  let be2 := jupdate be1
    [("type", .str "message"),
     ("message_id", jgetD msg_data "msgId" (.str "")),
     ("message", .arr segs_alts2.1),
     ("alt_message", .str (str_join segs_alts2.2)),
     ("user_id", jgetD sender "senderId" (.str "")),
     ("user_nickname", jgetD sender "senderNickname" (.str ""))]
  -- the source re-reads base_event["detail_type"], which was just set to
  -- `detail` and is untouched by the update above
  let be3 :=
    if detail = "group" then jset be2 "group_id" (jgetD chat_info "chatId" (.str ""))
    else jset be2 "self"
      (jset (jgetD be2 "self" (.obj [])) "user_id" (jgetD chat_info "chatId" (.str "")))
  -- the source nests two identical `if "receive.instruction" in event_type`
  -- tests; one suffices
  if strContains event_type "receive.instruction" then
    jset be3 "yunhu_command" (build_command_data content msg_data content_type)
  else be3

/-- Embedding of `_handle_friend_event`. -/
def handle_friend_event (event_type : String) (event_data bev : JVal) : JVal :=
  jupdate bev
    [("type", .str "notice"),
     ("detail_type", .str (if event_type = "bot.followed"
        then "friend_increase" else "friend_decrease")),
     ("user_id", jgetD event_data "userId" (.str "")),
     ("user_nickname", jgetD event_data "nickname" (.str "")),
     ("self", .obj [("platform", .str "yunhu"),
                    ("user_id", jgetD event_data "chatId" (.str ""))])]

/-- Embedding of `_handle_group_member_event`. -/
def handle_group_member_event (event_type : String) (event_data bev : JVal) : JVal :=
  jupdate bev
    [("type", .str "notice"),
     ("detail_type", .str (if event_type = "group.join"
        then "group_member_increase" else "group_member_decrease")),
     ("sub_type", .str (if event_type = "group.join" then "invite" else "leave")),
     ("group_id", jgetD event_data "chatId" (.str "")),
     ("user_id", jgetD event_data "userId" (.str "")),
     ("user_nickname", jgetD event_data "nickname" (.str "")),
     ("operator_id", .str ""),
     ("self", .obj [("platform", .str "yunhu"), ("user_id", .str "")])]

/-- Embedding of `_handle_button_event`. -/
def handle_button_event (_event_type : String) (event_data bev : JVal) : JVal :=
  jupdate bev
    [("type", .str "notice"),
     ("detail_type", .str "yunhu_button_click"),
     ("user_id", jgetD event_data "userId" (.str "")),
     ("user_nickname", jgetD event_data "nickname" (.str "")),
     ("message_id", jgetD event_data "msgId" (.str "")),
     ("yunhu_button", .obj [("id", jgetD event_data "buttonId" (.str "")),
                            ("value", jgetD event_data "value" (.str ""))]),
     ("self", .obj [("platform", .str "yunhu"), ("user_id", .str "")])]

/-- Embedding of `_handle_menu_event`. -/
def handle_menu_event (_event_type : String) (event_data bev : JVal) : JVal :=
  jupdate bev
    [("type", .str "notice"),
     ("detail_type", .str "yunhu_shortcut_menu"),
     ("user_id", jgetD event_data "senderId" (.str "")),
     ("user_nickname", jgetD event_data "nickname" (.str "")),
     ("group_id", if jstr_eq (jgetD event_data "chatType" .null) "group"
        then jgetD event_data "chatId" (.str "") else .str ""),
     ("yunhu_menu", .obj [("id", jgetD event_data "menuId" (.str "")),
                          ("type", jgetD event_data "menuType" (.num 1)),
                          ("action", jgetD event_data "menuAction" (.num 1))]),
     ("self", .obj [("platform", .str "yunhu"), ("user_id", .str "")])]

/-- Embedding of `_handle_setting_event`. -/
def handle_setting_event (_event_type : String) (event_data bev : JVal) : JVal :=
  jupdate bev
    [("type", .str "notice"),
     ("detail_type", .str "yunhu_bot_setting"),
     ("group_id", jgetD event_data "groupId" (.str "")),
     ("user_nickname", jgetD event_data "nickname" (.str "")),
     ("yunhu_setting", jgetD event_data "settingJson" (.obj [])),
     ("self", .obj [("platform", .str "yunhu"),
                    ("user_id", jgetD event_data "chatId" (.str ""))])]

/-- The `handler_map` dispatch of `convert`:
`return handler(...) if handler else None`. -/
def dispatch (mapped_type event_type : String) (event_data bev : JVal) : Option JVal :=
  match mapped_type with
  | "message" => some (handle_message_event event_type event_data bev)
  | "notice.friend_increase" => some (handle_friend_event event_type event_data bev)
  | "notice.friend_decrease" => some (handle_friend_event event_type event_data bev)
  | "notice.group_member_increase" =>
      some (handle_group_member_event event_type event_data bev)
  | "notice.group_member_decrease" =>
      some (handle_group_member_event event_type event_data bev)
  | "notice.yunhu_button_click" => some (handle_button_event event_type event_data bev)
  | "notice.yunhu_shortcut_menu" => some (handle_menu_event event_type event_data bev)
  | "notice.yunhu_bot_setting" => some (handle_setting_event event_type event_data bev)
  | _ => none

/-- The `ValueError` message for a missing (or falsy) `eventType`. -/
def missing_event_type_msg : String := "事件数据缺少eventType字段"

/-- Whether a value is a Python dict. -/
def JVal.isObj : JVal → Bool
  | .obj _ => true
  | _ => false

/-- Embedding of `Converter.convert`.  `ValueError` raises become
`Except.error`; the `return None` of an unclassified event type becomes
`.ok none`.  A non-string `eventType` that is truthy finds no table
entry (`mapped_type = ""`), so the handler lookup fails and the call
returns `None`, exactly as in the source; handlers therefore only ever
receive string event types. -/
def convert (ctx : ConvCtx) (data : JVal) : Except String (Option JVal) :=
  if data.isObj then
    let header := jgetD data "header" (.obj [])
    let event_type := jgetD header "eventType" (.str "")
    if jfalsy event_type then .error missing_event_type_msg
    else
      let bev := base_event ctx data header
      let mapped_type := event_map_lookup event_type
      let et_str : String := match event_type with | .str s => s | _ => ""
      let bev2 :=
        if strContainsChar mapped_type '.' then
          let parts := splitOnDot mapped_type
          let b := jset (jset bev "type" (.str (parts.getD 0 "")))
                        "detail_type" (.str (parts.getD 1 ""))
          if parts.length > 2 then jset b "sub_type" (.str (parts.getD 2 "")) else b
        else bev
      .ok (dispatch mapped_type et_str (jgetD data "event" (.obj [])) bev2)
  else .error "事件数据必须是字典类型"

/-- Whether a message segment is the appended button extension segment
(as opposed to a primary segment produced by the content-type dispatch). -/
def is_button_seg (seg : JVal) : Bool :=
  match jgetD seg "type" .null with
  | .str s => s == "yunhu_button"
  | _ => false

/-- The primary segments of a converted message event: its `message`
list without the button extension segment. -/
def primary_segments (ev : JVal) : List JVal :=
  match jgetD ev "message" (.arr []) with
  | .arr l => l.filter (fun seg => !is_button_seg seg)
  | _ => []

/-- Projection of one field out of a conversion outcome; `none` for
errors and for unclassified events. -/
def result_field (r : Except String (Option JVal)) (k : String) : Option JVal :=
  match r with
  | .ok (some ev) => jget ev k
  | _ => none

/-- The returned event of a successful conversion (`null` otherwise). -/
def result_event (r : Except String (Option JVal)) : JVal :=
  match r with
  | .ok (some ev) => ev
  | _ => .null

/-- Whether a conversion outcome is a raised error. -/
def is_error_result (r : Except String (Option JVal)) : Bool :=
  match r with
  | .error _ => true
  | _ => false

/-- A fixed impure context for the concrete scenarios below. -/
def sampleCtx : ConvCtx := ⟨1748613099002, "fresh-uuid"⟩

/-- A minimal subscription event, used as a concrete classified input. -/
def followInput : JVal :=
  .obj [("header", .obj [("eventType", .str "bot.followed")])]

/-- The converter's output on `followInput` (spelled out). -/
def followEvent : JVal :=
  .obj [("id", .str "fresh-uuid"), ("time", .num 1748613099),
        ("type", .str "notice"), ("detail_type", .str "friend_increase"),
        ("sub_type", .str ""), ("platform", .str "yunhu"),
        ("self", .obj [("platform", .str "yunhu"), ("user_id", .str "")]),
        ("user_nickname", .str ""), ("yunhu_raw", followInput),
        ("user_id", .str "")]

/-- A subscription event carrying an explicit millisecond timestamp. -/
def timedInput : JVal :=
  .obj [("header", .obj [("eventType", .str "bot.followed"),
                         ("eventTime", .num 1748613099002)])]

/-- The converter's output on `timedInput` (spelled out). -/
def timedEvent : JVal :=
  .obj [("id", .str "fresh-uuid"), ("time", .num 1748613099),
        ("type", .str "notice"), ("detail_type", .str "friend_increase"),
        ("sub_type", .str ""), ("platform", .str "yunhu"),
        ("self", .obj [("platform", .str "yunhu"), ("user_id", .str "")]),
        ("user_nickname", .str ""), ("yunhu_raw", timedInput),
        ("user_id", .str "")]

/-- A subscription event with a millisecond timestamp large enough for
the double division's rounding to differ from integer division
(`17592186044416999 / 1000` rounds up to `17592186044417.0`). -/
def hugeTimedInput : JVal :=
  .obj [("header", .obj [("eventType", .str "bot.followed"),
                         ("eventTime", .num 17592186044416999)])]

/-- An event whose type string appears in no row of the table. -/
def unknownTypeInput : JVal :=
  .obj [("header", .obj [("eventType", .str "yunhu.unknown")])]

/-- An event whose `eventType` is present but the empty string. -/
def emptyTypeInput : JVal :=
  .obj [("header", .obj [("eventType", .str "")])]

/-- The `group.join` concrete scenario of the specification. -/
def groupJoinInput : JVal :=
  .obj [("header", .obj [("eventType", .str "group.join")]),
        ("event", .obj [("chatId", .str "g1"), ("userId", .str "u2")])]

/-- The instruction-message concrete scenario (`"/ping extra  args"`). -/
def instrInput : JVal :=
  .obj [("header", .obj [("eventId", .str "e2"),
                         ("eventType", .str "message.receive.instruction"),
                         ("eventTime", .num 1000000)]),
        ("event", .obj [
          ("sender", .obj [("senderId", .str "u1")]),
          ("chat", .obj [("chatId", .str "c1"), ("chatType", .str "bot")]),
          ("message", .obj [("msgId", .str "m2"), ("contentType", .str "text"),
            ("commandName", .str "ping"), ("commandId", .num 7),
            ("content", .obj [("text", .str "/ping extra  args")])])])]

/-- The message metadata of `instrInput` (what `_build_command_data`
receives as `message_event`). -/
def instrMsgMeta : JVal :=
  .obj [("msgId", .str "m2"), ("contentType", .str "text"),
        ("commandName", .str "ping"), ("commandId", .num 7),
        ("content", .obj [("text", .str "/ping extra  args")])]

/-- A text message whose content also carries buttons. -/
def btnTextInput : JVal :=
  .obj [("header", .obj [("eventType", .str "message.receive.normal")]),
        ("event", .obj [
          ("chat", .obj [("chatId", .str "c1"), ("chatType", .str "bot")]),
          ("message", .obj [("contentType", .str "text"),
            ("content", .obj [("text", .str "hi"),
                              ("buttons", .arr [.obj [("text", .str "b")]])])])])]

/-- A plain text message without buttons. -/
def plainTextInput : JVal :=
  .obj [("header", .obj [("eventType", .str "message.receive.normal")]),
        ("event", .obj [
          ("chat", .obj [("chatId", .str "c1"), ("chatType", .str "bot")]),
          ("message", .obj [("contentType", .str "text"),
            ("content", .obj [("text", .str "hello")])])])]

/-- A checkbox form control with four options, the first and third
checked. -/
def checkboxField : JVal :=
  .obj [("type", .str "checkbox"), ("label", .str "L"),
        ("selectStatus", .arr [.bool true, .bool false, .bool true]),
        ("selectValues", .arr [.str "a", .str "b", .str "c", .str "d"])]

/-! ### Basic lemmas about the dictionary embedding -/

theorem alist_get_set_ne (k k' : String) (x : JVal) (fs : List (String × JVal))
    (h : k' ≠ k) : alist_get k' (alist_set k x fs) = alist_get k' fs := by
  have hkk : ¬ k = k' := fun hh => h hh.symm
  induction fs with
  | nil =>
    show (if k = k' then some x else alist_get k' []) = alist_get k' []
    exact if_neg hkk
  | cons kv rest ih =>
    cases kv with
    | mk k2 v =>
      simp only [alist_set]
      by_cases hk : k2 = k
      · subst hk
        rw [if_pos rfl]
        simp only [alist_get]
        rw [if_neg hkk, if_neg hkk]
      · rw [if_neg hk]
        simp only [alist_get]
        by_cases hk2 : k2 = k'
        · rw [if_pos hk2, if_pos hk2]
        · rw [if_neg hk2, if_neg hk2, ih]

theorem jget_jset_ne (o : JVal) (k k' : String) (x : JVal) (h : k' ≠ k) :
    jget (jset o k x) k' = jget o k' := by
  cases o <;> simp [jset, jget, alist_get_set_ne _ _ _ _ h]

theorem jget_jupdate_ne (o : JVal) (kvs : List (String × JVal)) (k : String)
    (h : k ∉ kvs.map Prod.fst) : jget (jupdate o kvs) k = jget o k := by
  induction kvs generalizing o with
  | nil => rfl
  | cons kv rest ih =>
    simp only [List.map_cons, List.mem_cons, not_or] at h
    cases kv with
    | mk k' v => exact (ih _ h.2).trans (jget_jset_ne _ _ _ _ h.1)

theorem str_data_append (x y : String) : (x ++ y).data = x.data ++ y.data := by
  cases x
  cases y
  rfl

theorem str_append_empty (s : String) : s ++ "" = s := by
  cases s with
  | mk l => exact congrArg String.mk (List.append_nil l)

/-! ### The classification table -/

theorem smap_get_absent (tbl : List (String × String)) (s : String)
    (h : ∀ p ∈ tbl, p.1 ≠ s) : smap_get tbl s = "" := by
  induction tbl with
  | nil => rfl
  | cons kv rest ih =>
    simp only [smap_get]
    rw [if_neg (h kv (List.mem_cons_self _ _))]
    exact ih fun p hp => h p (List.mem_cons_of_mem _ hp)

theorem smap_cases (s : String) :
    smap_get event_map_table s = "" ∨ s = "message.receive.normal" ∨
    s = "message.receive.instruction" ∨ s = "bot.followed" ∨ s = "bot.unfollowed" ∨
    s = "group.join" ∨ s = "group.leave" ∨ s = "button.report.inline" ∨
    s = "bot.shortcut.menu" ∨ s = "bot.setting" := by
  simp only [event_map_table, smap_get]
  split_ifs with h1 h2 h3 h4 h5 h6 h7 h8 h9
  · exact Or.inr (Or.inl h1.symm)
  · exact Or.inr (Or.inr (Or.inl h2.symm))
  · exact Or.inr (Or.inr (Or.inr (Or.inl h3.symm)))
  · exact Or.inr (Or.inr (Or.inr (Or.inr (Or.inl h4.symm))))
  · exact Or.inr (Or.inr (Or.inr (Or.inr (Or.inr (Or.inl h5.symm)))))
  · exact Or.inr (Or.inr (Or.inr (Or.inr (Or.inr (Or.inr (Or.inl h6.symm))))))
  · exact Or.inr (Or.inr (Or.inr (Or.inr (Or.inr (Or.inr (Or.inr (Or.inl h7.symm)))))))
  · exact Or.inr (Or.inr (Or.inr (Or.inr (Or.inr (Or.inr (Or.inr (Or.inr (Or.inl h8.symm))))))))
  · exact Or.inr (Or.inr (Or.inr (Or.inr (Or.inr (Or.inr (Or.inr (Or.inr (Or.inr h9.symm))))))))
  · exact Or.inl rfl

/-! ### Handler key-preservation lemmas: each per-category builder only
writes its own fields, so every other field of the base event skeleton
survives unchanged. -/

theorem handle_friend_preserves (et : String) (ed b : JVal) (k : String)
    (h : k ∉ (["type", "detail_type", "user_id", "user_nickname", "self"] : List String)) :
    jget (handle_friend_event et ed b) k = jget b k := by
  simp only [handle_friend_event]
  exact jget_jupdate_ne _ _ _ (by simpa using h)

theorem handle_group_preserves (et : String) (ed b : JVal) (k : String)
    (h : k ∉ (["type", "detail_type", "sub_type", "group_id", "user_id",
               "user_nickname", "operator_id", "self"] : List String)) :
    jget (handle_group_member_event et ed b) k = jget b k := by
  simp only [handle_group_member_event]
  exact jget_jupdate_ne _ _ _ (by simpa using h)

theorem handle_button_preserves (et : String) (ed b : JVal) (k : String)
    (h : k ∉ (["type", "detail_type", "user_id", "user_nickname", "message_id",
               "yunhu_button", "self"] : List String)) :
    jget (handle_button_event et ed b) k = jget b k := by
  simp only [handle_button_event]
  exact jget_jupdate_ne _ _ _ (by simpa using h)

theorem handle_menu_preserves (et : String) (ed b : JVal) (k : String)
    (h : k ∉ (["type", "detail_type", "user_id", "user_nickname", "group_id",
               "yunhu_menu", "self"] : List String)) :
    jget (handle_menu_event et ed b) k = jget b k := by
  simp only [handle_menu_event]
  exact jget_jupdate_ne _ _ _ (by simpa using h)

theorem handle_setting_preserves (et : String) (ed b : JVal) (k : String)
    (h : k ∉ (["type", "detail_type", "group_id", "user_nickname",
               "yunhu_setting", "self"] : List String)) :
    jget (handle_setting_event et ed b) k = jget b k := by
  simp only [handle_setting_event]
  exact jget_jupdate_ne _ _ _ (by simpa using h)

theorem handle_message_preserves (et : String) (ed b : JVal) (k : String)
    (h : k ∉ (["detail_type", "type", "message_id", "message", "alt_message",
               "user_id", "user_nickname", "group_id", "self",
               "yunhu_command"] : List String)) :
    jget (handle_message_event et ed b) k = jget b k := by
  simp only [List.mem_cons, List.not_mem_nil, or_false, not_or] at h
  obtain ⟨hdt, hty, hmi, hme, hal, hui, hun, hgi, hse, hyc⟩ := h
  simp only [handle_message_event]
  simp [apply_ite (fun v => jget v k), jget_jset_ne, jget_jupdate_ne,
        hdt, hty, hmi, hme, hal, hui, hun, hgi, hse, hyc]

/-! ### Shape of a successful conversion -/

/-- Any field outside the handler-written set survives from the base
event skeleton into the returned event, whatever the event category. -/
theorem convert_ok_some (ctx : ConvCtx) (data ev : JVal) (k : String)
    (hk : k ∉ (["type", "detail_type", "sub_type", "message_id", "message",
                "alt_message", "user_id", "user_nickname", "group_id", "self",
                "yunhu_command", "operator_id", "yunhu_button", "yunhu_menu",
                "yunhu_setting"] : List String))
    (h : convert ctx data = .ok (some ev)) :
    jget ev k = jget (base_event ctx data (jgetD data "header" (.obj []))) k := by
  simp only [List.mem_cons, List.not_mem_nil, or_false, not_or] at hk
  obtain ⟨kty, kdt, kst, kmi, kme, kal, kui, kun, kgi, kse, kyc, koi, kyb, kym, kys⟩ := hk
  by_cases hobj : data.isObj
  case neg => simp [convert, hobj] at h
  case pos =>
  simp only [convert, hobj, if_true] at h
  by_cases hf : jfalsy (jgetD (jgetD data "header" (.obj [])) "eventType" (.str "")) = true
  · rw [if_pos hf] at h
    exact absurd h (by simp)
  · rw [if_neg hf] at h
    generalize hE : jgetD (jgetD data "header" (.obj [])) "eventType" (.str "") = e at h
    cases e with
    | null => simp [event_map_lookup, dispatch] at h
    | bool b => simp [event_map_lookup, dispatch] at h
    | num n => simp [event_map_lookup, dispatch] at h
    | arr l => simp [event_map_lookup, dispatch] at h
    | obj l => simp [event_map_lookup, dispatch] at h
    | str s =>
      rcases smap_cases s with h0 | rfl | rfl | rfl | rfl | rfl | rfl | rfl | rfl | rfl
      · simp only [event_map_lookup] at h
        rw [h0] at h
        simp [dispatch] at h
      · simp only [event_map_lookup,
          show smap_get event_map_table "message.receive.normal" = "message" from rfl,
          show strContainsChar "message" '.' = false from rfl,
          Bool.false_eq_true, if_false, dispatch, Except.ok.injEq, Option.some.injEq] at h
        rw [← h]
        exact handle_message_preserves _ _ _ _
          (by simp [kty, kdt, kmi, kme, kal, kui, kun, kgi, kse, kyc])
      · simp only [event_map_lookup,
          show smap_get event_map_table "message.receive.instruction" = "message" from rfl,
          show strContainsChar "message" '.' = false from rfl,
          Bool.false_eq_true, if_false, dispatch, Except.ok.injEq, Option.some.injEq] at h
        rw [← h]
        exact handle_message_preserves _ _ _ _
          (by simp [kty, kdt, kmi, kme, kal, kui, kun, kgi, kse, kyc])
      · simp only [event_map_lookup,
          show smap_get event_map_table "bot.followed" = "notice.friend_increase" from rfl,
          show strContainsChar "notice.friend_increase" '.' = true from rfl,
          if_true, dispatch, Except.ok.injEq, Option.some.injEq] at h
        rw [← h,
          handle_friend_preserves _ _ _ _ (by simp [kty, kdt, kui, kun, kse])]
        simp [apply_ite (fun v => jget v k), jget_jset_ne, kty, kdt, kst]
      · simp only [event_map_lookup,
          show smap_get event_map_table "bot.unfollowed" = "notice.friend_decrease" from rfl,
          show strContainsChar "notice.friend_decrease" '.' = true from rfl,
          if_true, dispatch, Except.ok.injEq, Option.some.injEq] at h
        rw [← h,
          handle_friend_preserves _ _ _ _ (by simp [kty, kdt, kui, kun, kse])]
        simp [apply_ite (fun v => jget v k), jget_jset_ne, kty, kdt, kst]
      · simp only [event_map_lookup,
          show smap_get event_map_table "group.join" = "notice.group_member_increase" from rfl,
          show strContainsChar "notice.group_member_increase" '.' = true from rfl,
          if_true, dispatch, Except.ok.injEq, Option.some.injEq] at h
        rw [← h,
          handle_group_preserves _ _ _ _ (by simp [kty, kdt, kst, kgi, kui, kun, koi, kse])]
        simp [apply_ite (fun v => jget v k), jget_jset_ne, kty, kdt, kst]
      · simp only [event_map_lookup,
          show smap_get event_map_table "group.leave" = "notice.group_member_decrease" from rfl,
          show strContainsChar "notice.group_member_decrease" '.' = true from rfl,
          if_true, dispatch, Except.ok.injEq, Option.some.injEq] at h
        rw [← h,
          handle_group_preserves _ _ _ _ (by simp [kty, kdt, kst, kgi, kui, kun, koi, kse])]
        simp [apply_ite (fun v => jget v k), jget_jset_ne, kty, kdt, kst]
      · simp only [event_map_lookup,
          show smap_get event_map_table "button.report.inline" = "notice.yunhu_button_click" from rfl,
          show strContainsChar "notice.yunhu_button_click" '.' = true from rfl,
          if_true, dispatch, Except.ok.injEq, Option.some.injEq] at h
        rw [← h,
          handle_button_preserves _ _ _ _ (by simp [kty, kdt, kui, kun, kmi, kyb, kse])]
        simp [apply_ite (fun v => jget v k), jget_jset_ne, kty, kdt, kst]
      · simp only [event_map_lookup,
          show smap_get event_map_table "bot.shortcut.menu" = "notice.yunhu_shortcut_menu" from rfl,
          show strContainsChar "notice.yunhu_shortcut_menu" '.' = true from rfl,
          if_true, dispatch, Except.ok.injEq, Option.some.injEq] at h
        rw [← h,
          handle_menu_preserves _ _ _ _ (by simp [kty, kdt, kui, kun, kgi, kym, kse])]
        simp [apply_ite (fun v => jget v k), jget_jset_ne, kty, kdt, kst]
      · simp only [event_map_lookup,
          show smap_get event_map_table "bot.setting" = "notice.yunhu_bot_setting" from rfl,
          show strContainsChar "notice.yunhu_bot_setting" '.' = true from rfl,
          if_true, dispatch, Except.ok.injEq, Option.some.injEq] at h
        rw [← h,
          handle_setting_preserves _ _ _ _ (by simp [kty, kdt, kgi, kun, kys, kse])]
        simp [apply_ite (fun v => jget v k), jget_jset_ne, kty, kdt, kst]

/-! ### The float division model below `2^52` agrees with integer
division -/

theorem roundNE_div_le (a b : Nat) : roundNE_div a b ≤ a / b + 1 := by
  simp only [roundNE_div]
  split_ifs <;> omega

theorem roundNE_div_add_left (E y : Nat) (hE : E % 2 = 0) :
    roundNE_div (1000 * E + y) 1000 = E + roundNE_div y 1000 := by
  simp only [roundNE_div]
  rw [Nat.mul_add_div (by norm_num), Nat.mul_add_mod]
  split_ifs <;> omega

theorem ilog2_fuel_le (fuel : Nat) :
    ∀ n, 1 ≤ n → 2 ^ ilog2_fuel fuel n ≤ n := by
  induction fuel with
  | zero =>
    intro n h1
    simpa [ilog2_fuel] using h1
  | succ fuel ih =>
    intro n h1
    simp only [ilog2_fuel]
    by_cases h2 : 2 ≤ n
    · rw [if_pos h2, pow_succ]
      have hrec := ih (n / 2) (by omega)
      omega
    · rw [if_neg h2]
      simpa using h1

theorem nat_ilog2_le (n : Nat) (h1 : 1 ≤ n) : 2 ^ nat_ilog2 n ≤ n :=
  ilog2_fuel_le n n h1

theorem float_div1000_trunc_eq (m : Nat) (hm : m < 2 ^ 52) :
    float_div1000_trunc m = m / 1000 := by
  by_cases h0 : m = 0
  · subst h0
    rfl
  · simp only [float_div1000_trunc]
    rw [if_neg h0]
    by_cases hsmall : m < 1000
    · rw [if_pos hsmall, Nat.div_eq_of_lt hsmall]
      apply Nat.div_eq_of_lt
      have hP : 1000 < 2 ^ (52 + shift_for m 10) := by
        calc (1000 : Nat) < 2 ^ 52 := by norm_num
          _ ≤ 2 ^ (52 + shift_for m 10) :=
            Nat.pow_le_pow_right (by norm_num) (by omega)
      have hle := roundNE_div_le (m * 2 ^ (52 + shift_for m 10)) 1000
      have hmul : m * 2 ^ (52 + shift_for m 10) ≤ 999 * 2 ^ (52 + shift_for m 10) :=
        Nat.mul_le_mul_right _ (by omega)
      have hd : m * 2 ^ (52 + shift_for m 10) / 1000
          ≤ 999 * 2 ^ (52 + shift_for m 10) / 1000 := Nat.div_le_div_right hmul
      have h999 : 999 * 2 ^ (52 + shift_for m 10) / 1000
          < 2 ^ (52 + shift_for m 10) - 1 := by
        rw [Nat.div_lt_iff_lt_mul (by norm_num)]
        omega
      omega
    · rw [if_neg hsmall]
      have hq1 : 1 ≤ m / 1000 := (Nat.one_le_div_iff (by norm_num)).mpr (by omega)
      have hflt : nat_ilog2 (m / 1000) ≤ 42 := by
        have hspec := nat_ilog2_le (m / 1000) hq1
        have hub : m / 1000 < 2 ^ 43 := by
          rw [Nat.div_lt_iff_lt_mul (by norm_num)]
          calc m < 2 ^ 52 := hm
            _ ≤ 2 ^ 43 * 1000 := by norm_num
        by_contra hcon
        push_neg at hcon
        have h43 : (2 : Nat) ^ 43 ≤ 2 ^ nat_ilog2 (m / 1000) :=
          Nat.pow_le_pow_right (by norm_num) (by omega)
        omega
      rw [if_pos (show nat_ilog2 (m / 1000) ≤ 52 by omega)]
      set k := 52 - nat_ilog2 (m / 1000) with hkdef
      have hk10 : 10 ≤ k := by omega
      have hPk : 1000 < 2 ^ k := by
        calc (1000 : Nat) < 2 ^ 10 := by norm_num
          _ ≤ 2 ^ k := Nat.pow_le_pow_right (by norm_num) hk10
      have h2k : (2 : Nat) ^ k = 2 * 2 ^ (k - 1) := by
        rw [← pow_succ']
        congr 1
        omega
      have hmod : 1000 * (m / 1000) + m % 1000 = m := Nat.div_add_mod m 1000
      have hdecomp : m * 2 ^ k
          = 1000 * (m / 1000 * 2 ^ k) + m % 1000 * 2 ^ k := by
        calc m * 2 ^ k = (1000 * (m / 1000) + m % 1000) * 2 ^ k := by rw [hmod]
          _ = 1000 * (m / 1000 * 2 ^ k) + m % 1000 * 2 ^ k := by ring
      have hEeven : (m / 1000 * 2 ^ k) % 2 = 0 := by
        have hsplit : m / 1000 * 2 ^ k = 2 * (m / 1000 * 2 ^ (k - 1)) := by
          rw [h2k]
          ring
        omega
      rw [hdecomp, roundNE_div_add_left _ _ hEeven]
      have ht : roundNE_div (m % 1000 * 2 ^ k) 1000 < 2 ^ k := by
        have hle := roundNE_div_le (m % 1000 * 2 ^ k) 1000
        have hmul : m % 1000 * 2 ^ k ≤ 999 * 2 ^ k :=
          Nat.mul_le_mul_right _ (by omega)
        have hd : m % 1000 * 2 ^ k / 1000 ≤ 999 * 2 ^ k / 1000 :=
          Nat.div_le_div_right hmul
        have h999 : 999 * 2 ^ k / 1000 < 2 ^ k - 1 := by
          rw [Nat.div_lt_iff_lt_mul (by norm_num)]
          omega
        omega
      rw [Nat.mul_comm (m / 1000) (2 ^ k), Nat.add_comm,
        Nat.add_mul_div_left _ _ (Nat.pos_pow_of_pos _ (by norm_num)),
        Nat.div_eq_of_lt ht]
      exact Nat.zero_add _

/-! ### Claim theorems -/

/-- C4: for every input event of every classified category, the
returned normalized event carries the raw-payload extension field
`yunhu_raw`, and that field deep-equals the original input object,
unmodified. -/
theorem convert_preserves_yunhu_raw (ctx : ConvCtx) (data ev : JVal)
    (h : convert ctx data = .ok (some ev)) :
    jget ev "yunhu_raw" = some data := by
  rw [convert_ok_some ctx data ev "yunhu_raw" (by decide) h]
  rfl

/-- Witness for C4 at the concrete `bot.followed` input. -/
theorem convert_preserves_yunhu_raw_witness :
    jget followEvent "yunhu_raw" = some followInput :=
  convert_preserves_yunhu_raw sampleCtx followInput followEvent rfl

/-- C7 counterexample: at the millisecond timestamp
`17592186044416999`, CPython's correctly-rounded double division gives
`int(17592186044416999 / 1000) = 17592186044417`, one more than the
integer division `17592186044416999 // 1000 = 17592186044416`; the
output `time` field therefore differs from the claimed integer-divided
value. -/
theorem convert_time_counterexample :
    result_field (convert sampleCtx hugeTimedInput) "time"
      = some (.num 17592186044417) ∧
    result_field (convert sampleCtx hugeTimedInput) "time"
      ≠ some (.num (Int.ofNat (17592186044416999 / 1000))) :=
  ⟨rfl, fun hc => by
    have hc2 : some (JVal.num 17592186044417)
        = some (JVal.num (Int.ofNat (17592186044416999 / 1000))) := hc
    simp only [Option.some.injEq, JVal.num.injEq] at hc2
    exact absurd hc2 (by decide)⟩

/-- C7 (amended): for every input whose `header.eventTime` is present
as an integer millisecond timestamp below `2^52`, the output's `time`
field equals that timestamp integer-divided by 1000 (integer seconds
since epoch); for larger timestamps the rounding of the double division
can differ from integer division. -/
theorem convert_time_is_ms_div_1000 (ctx : ConvCtx) (data ev : JVal) (m : Nat)
    (hm : m < 2 ^ 52)
    (hT : jget (jgetD data "header" (.obj [])) "eventTime" = some (.num (Int.ofNat m)))
    (h : convert ctx data = .ok (some ev)) :
    jget ev "time" = some (.num (Int.ofNat (m / 1000))) := by
  rw [convert_ok_some ctx data ev "time" (by decide) h]
  have hbase : jget (base_event ctx data (jgetD data "header" (.obj []))) "time"
      = some (.num (time_field (jgetD data "header" (.obj [])) ctx.nowMs)) := rfl
  rw [hbase, time_field, jgetD, hT]
  simp only [Option.getD_some, jint_of, py_int_div1000]
  rw [if_neg (show ¬ Int.ofNat m < 0 from not_lt.mpr (Int.ofNat_nonneg m))]
  rw [show (Int.ofNat m).toNat = m from rfl]
  rw [float_div1000_trunc_eq m hm]
  rfl

/-- Witness for the amended C7 at a concrete timestamped input. -/
theorem convert_time_is_ms_div_1000_witness :
    jget timedEvent "time" = some (.num (Int.ofNat (1748613099002 / 1000))) :=
  convert_time_is_ms_div_1000 sampleCtx timedInput timedEvent 1748613099002
    (by norm_num) rfl rfl

/-- C5: for every input dict whose `header.eventType` is a non-empty
string not present in the classification table, the conversion returns
no result (`.ok none`) and never throws. -/
theorem convert_unmapped_returns_none (ctx : ConvCtx) (data : JVal) (s : String)
    (hobj : data.isObj = true)
    (hET : jget (jgetD data "header" (.obj [])) "eventType" = some (.str s))
    (hs : s ≠ "")
    (habs : ∀ p ∈ event_map_table, p.1 ≠ s) :
    convert ctx data = .ok none := by
  have he : jgetD (jgetD data "header" (.obj [])) "eventType" (.str "") = .str s := by
    rw [jgetD, hET]
    rfl
  simp only [convert, hobj, if_true, he]
  rw [if_neg (by simp [jfalsy, hs])]
  simp only [event_map_lookup]
  rw [smap_get_absent _ _ habs]
  rfl

/-- Witness for C5 at the unknown event type `"yunhu.unknown"`. -/
theorem convert_unmapped_returns_none_witness :
    convert sampleCtx unknownTypeInput = .ok none :=
  convert_unmapped_returns_none sampleCtx unknownTypeInput "yunhu.unknown"
    rfl rfl (by decide) (by decide)

/-- C8: for every input that is not a dict, or whose header lacks the
`eventType` field, the conversion raises a validation error instead of
returning a result. -/
theorem convert_malformed_errors (ctx : ConvCtx) (data : JVal)
    (h : data.isObj = false ∨ jget (jgetD data "header" (.obj [])) "eventType" = none) :
    ∃ msg, convert ctx data = .error msg := by
  by_cases hobj : data.isObj
  · rcases h with h | h
    · rw [hobj] at h
      exact absurd h (by simp)
    · refine ⟨missing_event_type_msg, ?_⟩
      simp only [convert, hobj, if_true]
      rw [if_pos]
      rw [jgetD, h]
      rfl
  · exact ⟨"事件数据必须是字典类型", by simp [convert, hobj]⟩

/-- Witness for C8 at a non-dict input. -/
theorem convert_malformed_errors_witness :
    is_error_result (convert sampleCtx (.str "nope")) = true := by
  rcases convert_malformed_errors sampleCtx (.str "nope") (Or.inl rfl) with ⟨msg, hmsg⟩
  rw [hmsg]
  rfl

/-- C10: an input whose `header.eventType` is present but equal to the
empty string is treated as malformed: `convert` raises the same
validation error as for a missing `eventType`, instead of silently
returning no result. -/
theorem convert_empty_event_type_errors (ctx : ConvCtx) (data : JVal)
    (hobj : data.isObj = true)
    (hET : jget (jgetD data "header" (.obj [])) "eventType" = some (.str "")) :
    convert ctx data = .error missing_event_type_msg := by
  simp only [convert, hobj, if_true]
  rw [if_pos]
  rw [jgetD, hET]
  rfl

/-- Witness for C10 at a concrete empty-`eventType` input. -/
theorem convert_empty_event_type_errors_witness :
    convert sampleCtx emptyTypeInput = .error missing_event_type_msg :=
  convert_empty_event_type_errors sampleCtx emptyTypeInput rfl rfl

/-- C9: for every `group.join` event, the output has type `"notice"`,
detail_type `"group_member_increase"`, sub_type `"invite"`, `group_id`
equal to the event's `chatId`, `user_id` equal to the event's `userId`,
and `operator_id` always the empty string. -/
theorem convert_group_join_fields (ctx : ConvCtx) (data : JVal)
    (hobj : data.isObj = true)
    (hET : jget (jgetD data "header" (.obj [])) "eventType" = some (.str "group.join")) :
    ∃ ev, convert ctx data = .ok (some ev) ∧
      jget ev "type" = some (.str "notice") ∧
      jget ev "detail_type" = some (.str "group_member_increase") ∧
      jget ev "sub_type" = some (.str "invite") ∧
      jget ev "group_id" = some (jgetD (jgetD data "event" (.obj [])) "chatId" (.str "")) ∧
      jget ev "user_id" = some (jgetD (jgetD data "event" (.obj [])) "userId" (.str "")) ∧
      jget ev "operator_id" = some (.str "") := by
  have he : jgetD (jgetD data "header" (.obj [])) "eventType" (.str "") = .str "group.join" := by
    rw [jgetD, hET]
    rfl
  refine ⟨handle_group_member_event "group.join" (jgetD data "event" (.obj []))
      (jset (jset (base_event ctx data (jgetD data "header" (.obj []))) "type" (.str "notice"))
        "detail_type" (.str "group_member_increase")), ?_, rfl, rfl, rfl, rfl, rfl, rfl⟩
  simp only [convert, hobj, if_true, he]
  rw [if_neg (by decide)]
  rfl

/-- Witness for C9 at the specification's concrete scenario
(`chatId = "g1"`, `userId = "u2"`). -/
theorem convert_group_join_fields_witness :
    result_field (convert sampleCtx groupJoinInput) "type" = some (.str "notice") ∧
    result_field (convert sampleCtx groupJoinInput) "detail_type"
      = some (.str "group_member_increase") ∧
    result_field (convert sampleCtx groupJoinInput) "sub_type" = some (.str "invite") ∧
    result_field (convert sampleCtx groupJoinInput) "group_id" = some (.str "g1") ∧
    result_field (convert sampleCtx groupJoinInput) "user_id" = some (.str "u2") ∧
    result_field (convert sampleCtx groupJoinInput) "operator_id" = some (.str "") := by
  rcases convert_group_join_fields sampleCtx groupJoinInput rfl rfl with
    ⟨ev, h1, h2, h3, h4, h5, h6, h7⟩
  have hr : ∀ k, result_field (convert sampleCtx groupJoinInput) k = jget ev k := by
    intro k
    rw [h1]
    rfl
  exact ⟨(hr "type").trans h2, (hr "detail_type").trans h3, (hr "sub_type").trans h4,
    (hr "group_id").trans h5, (hr "user_id").trans h6, (hr "operator_id").trans h7⟩

/-- C1: on the instruction-message scenario the claim predicts a
`yunhu_command` record `{name, id, args}` with `args = "extra  args"`;
the code instead stores `None` there, because `_build_command_data`
constructs exactly that record but ends without a `return` statement.
The first conjunct evaluates the converter at the failing input; the
second evaluates the record the function builds and drops. -/
theorem instruction_command_is_none :
    result_field (convert sampleCtx instrInput) "yunhu_command" = some .null ∧
    jget (command_record (.obj [("text", .str "/ping extra  args")]) instrMsgMeta) "args"
      = some (.str "extra  args") :=
  ⟨rfl, rfl⟩

/-- C2 counterexample: for text `"/ping a /ping b"` and command name
`"ping"`, the code's `args` is `"a  b"` — the second occurrence of
`"/ping"` is removed too (Python `str.replace` replaces every
occurrence), contradicting the claim that it is preserved. -/
theorem command_args_counterexample :
    jget (command_record (.obj [("text", .str "/ping a /ping b")])
        (.obj [("commandName", .str "ping"), ("commandId", .num 0)])) "args"
      = some (.str "a  b") ∧
    jget (command_record (.obj [("text", .str "/ping a /ping b")])
        (.obj [("commandName", .str "ping"), ("commandId", .num 0)])) "args"
      ≠ some (.str "a /ping b") :=
  ⟨rfl, fun hc => by
    have hc2 : some (JVal.str "a  b") = some (JVal.str "a /ping b") := hc
    simp only [Option.some.injEq, JVal.str.injEq] at hc2
    exact absurd hc2 (by decide)⟩

/-! ### Replace-all semantics of the command-argument extraction -/

theorem pyReplaceAux_nil (pat rep : List Char) (fuel : Nat) :
    pyReplaceAux pat rep fuel [] = [] := by
  cases fuel <;> rfl

theorem pyReplaceAux_skip (pat rep : List Char) (fuel : Nat) (c : Char) (cs : List Char)
    (h : ¬ pat.isPrefixOf (c :: cs) = true) :
    pyReplaceAux pat rep (fuel + 1) (c :: cs) = c :: pyReplaceAux pat rep fuel cs := by
  simp only [pyReplaceAux]
  rw [if_neg fun hh => h hh.2]

theorem isPrefixOf_append_self (l t : List Char) : l.isPrefixOf (l ++ t) = true := by
  induction l with
  | nil => cases t <;> rfl
  | cons a as ih => simp [List.isPrefixOf, ih]

theorem pyReplaceAux_match (p : Char) (ps rep t : List Char) (fuel : Nat) :
    pyReplaceAux (p :: ps) rep (fuel + 1) ((p :: ps) ++ t)
      = rep ++ pyReplaceAux (p :: ps) rep fuel t := by
  rw [List.cons_append]
  simp only [pyReplaceAux]
  rw [if_pos ⟨List.cons_ne_nil _ _, isPrefixOf_append_self (p :: ps) t⟩]
  rw [List.length_cons, List.drop_succ_cons, List.drop_left]

theorem pyReplaceAux_no_head (q rep : List Char) :
    ∀ (s : List Char) (fuel : Nat), (∀ c ∈ s, c ≠ '/') → s.length ≤ fuel →
    pyReplaceAux ('/' :: q) rep fuel s = s := by
  intro s
  induction s with
  | nil => exact fun fuel _ _ => pyReplaceAux_nil _ _ _
  | cons c cs ih =>
    intro fuel hs hf
    cases fuel with
    | zero => simp at hf
    | succ fuel =>
      have hc : c ≠ '/' := hs c (List.mem_cons_self _ _)
      rw [pyReplaceAux_skip _ _ _ _ _ (by simp [List.isPrefixOf, Ne.symm hc])]
      rw [ih fuel (fun x hx => hs x (List.mem_cons_of_mem _ hx))
          (by simp only [List.length_cons] at hf; omega)]

theorem pyReplaceAux_strip_two (n b : List Char) (hb : ∀ c ∈ b, c ≠ '/') :
    ∀ (a : List Char) (fuel : Nat), (∀ c ∈ a, c ≠ '/') →
    (a ++ ('/' :: n) ++ b).length ≤ fuel →
    pyReplaceAux ('/' :: n) [] fuel (a ++ ('/' :: n) ++ b) = a ++ b := by
  intro a
  induction a with
  | nil =>
    intro fuel _ hf
    simp only [List.nil_append] at hf ⊢
    cases fuel with
    | zero => simp at hf
    | succ fuel =>
      rw [pyReplaceAux_match '/' n [] b fuel]
      rw [pyReplaceAux_no_head n [] b fuel hb
          (by simp only [List.length_cons, List.length_append] at hf; omega)]
      rfl
  | cons c a ih =>
    intro fuel hc hf
    have hcs : c ≠ '/' := hc c (List.mem_cons_self _ _)
    cases fuel with
    | zero => simp at hf
    | succ fuel =>
      rw [List.cons_append, List.cons_append]
      rw [pyReplaceAux_skip _ _ _ _ _ (by simp [List.isPrefixOf, Ne.symm hcs])]
      rw [ih fuel (fun x hx => hc x (List.mem_cons_of_mem _ hx))
          (by simp only [List.length_append, List.length_cons] at hf ⊢; omega)]
      rfl

theorem pyReplaceAux_double (n a b : List Char)
    (ha : ∀ c ∈ a, c ≠ '/') (hb : ∀ c ∈ b, c ≠ '/') (fuel : Nat)
    (hf : (('/' :: n) ++ a ++ ('/' :: n) ++ b).length ≤ fuel) :
    pyReplaceAux ('/' :: n) [] fuel (('/' :: n) ++ a ++ ('/' :: n) ++ b) = a ++ b := by
  have hassoc : ('/' :: n) ++ a ++ ('/' :: n) ++ b
      = ('/' :: n) ++ ((a ++ ('/' :: n)) ++ b) := by
    simp [List.append_assoc]
  rw [hassoc] at hf ⊢
  cases fuel with
  | zero => simp at hf
  | succ fuel =>
    rw [pyReplaceAux_match]
    rw [pyReplaceAux_strip_two n b hb a fuel ha
        (by simp only [List.length_append, List.length_cons] at hf ⊢; omega)]
    rfl

/-- C2 (amended): the `"/<command-name>"` prefix is stripped textually
by string-replace semantics, removing EVERY occurrence (left to right,
non-overlapping), not only the first: for any message text of the shape
`"/<name>" ++ a ++ "/<name>" ++ b` where `a` and `b` contain no `'/'`,
the extracted `args` is `(a ++ b)` stripped of surrounding whitespace —
the reappearing `"/<name>"` is removed as well. -/
theorem command_args_strips_every_occurrence (name a b : String)
    (ha : ∀ c ∈ a.data, c ≠ '/') (hb : ∀ c ∈ b.data, c ≠ '/') :
    jget (command_record
        (.obj [("text", .str ("/" ++ name ++ a ++ "/" ++ name ++ b))])
        (.obj [("commandName", .str name)])) "args"
      = some (.str (py_strip (a ++ b))) := by
  have hrec : jget (command_record
      (.obj [("text", .str ("/" ++ name ++ a ++ "/" ++ name ++ b))])
      (.obj [("commandName", .str name)])) "args"
      = some (.str (py_strip (pyReplaceS ("/" ++ name ++ a ++ "/" ++ name ++ b)
          ("/" ++ name) ""))) := rfl
  have hPdata : ("/" ++ name : String).data = '/' :: name.data := by
    rw [str_data_append]
    rfl
  have hSdata : ("/" ++ name ++ a ++ "/" ++ name ++ b : String).data
      = ('/' :: name.data) ++ a.data ++ ('/' :: name.data) ++ b.data := by
    simp [str_data_append, List.append_assoc]
  have hlist : pyReplaceAux (("/" ++ name : String).data) []
      (("/" ++ name ++ a ++ "/" ++ name ++ b : String).data.length)
      (("/" ++ name ++ a ++ "/" ++ name ++ b : String).data)
      = a.data ++ b.data := by
    rw [hPdata, hSdata]
    exact pyReplaceAux_double name.data a.data b.data ha hb _ (le_refl _)
  have hTP : pyReplaceS ("/" ++ name ++ a ++ "/" ++ name ++ b) ("/" ++ name) ""
      = a ++ b :=
    (congrArg String.mk hlist).trans (congrArg String.mk (str_data_append a b).symm)
  rw [hrec, hTP]

/-- Witness for the amended C2 at `name = "ping"`, `a = " x "`,
`b = " y"`. -/
theorem command_args_strips_every_occurrence_witness :
    jget (command_record
        (.obj [("text", .str ("/" ++ "ping" ++ " x " ++ "/" ++ "ping" ++ " y"))])
        (.obj [("commandName", .str "ping")])) "args"
      = some (.str "x  y") :=
  command_args_strips_every_occurrence "ping" " x " " y" (by decide) (by decide)

/-- C3 counterexample: a text message `"hi"` whose content also carries
buttons yields `alt_message = "hi[按钮]"`, not the claimed `"hi"` — the
button placeholder is appended to the fallback text. -/
theorem text_alt_message_counterexample :
    result_field (convert sampleCtx btnTextInput) "alt_message" = some (.str "hi[按钮]") ∧
    result_field (convert sampleCtx btnTextInput) "alt_message" ≠ some (.str "hi") :=
  ⟨rfl, fun hc => by
    have hc2 : some (JVal.str "hi[按钮]") = some (JVal.str "hi") := hc
    simp only [Option.some.injEq, JVal.str.injEq] at hc2
    exact absurd hc2 (by decide)⟩

/-- The text-content branch of the message builder: one primary text
segment exactly when the text is non-empty, and the fallback text is
the message text followed by the button placeholder when buttons are
present. -/
theorem handle_message_text_fields (et : String) (ctx : ConvCtx) (data : JVal)
    (t : String)
    (hCT : jgetD (jgetD (jgetD data "event" (.obj [])) "message" (.obj []))
             "contentType" (.str "text") = .str "text")
    (hTX : jgetD (jgetD (jgetD (jgetD data "event" (.obj [])) "message" (.obj []))
             "content" (.obj [])) "text" (.str "") = .str t) :
    primary_segments (handle_message_event et (jgetD data "event" (.obj []))
        (base_event ctx data (jgetD data "header" (.obj []))))
      = (if t = "" then [] else [text_segment (.str t)]) ∧
    jget (handle_message_event et (jgetD data "event" (.obj []))
        (base_event ctx data (jgetD data "header" (.obj [])))) "alt_message"
      = some (.str ((if t = "" then "" else t) ++
          (if jfalsy (jgetD (jgetD (jgetD (jgetD data "event" (.obj []))
              "message" (.obj [])) "content" (.obj [])) "buttons" .null)
           then "" else "[按钮]"))) := by
  refine ⟨?_, ?_⟩ <;>
  · simp only [handle_message_event]
    rw [hCT, hTX]
    rw [if_pos (show jstr_eq (JVal.str "text") "text" = true from rfl)]
    by_cases hin : strContains et "receive.instruction" = true <;>
      simp only [hin, eq_self_iff_true, if_true, Bool.false_eq_true, if_false] <;>
    by_cases hch : jstr_eq (jgetD (jgetD (jgetD data "event" (.obj [])) "chat" (.obj []))
        "chatType" (.str "")) "bot" = true <;>
      simp only [hch, eq_self_iff_true, if_true, Bool.false_eq_true, if_false,
        show ¬ ("private" : String) = "group" from by decide] <;>
    by_cases ht : t = "" <;>
      simp only [ht, eq_self_iff_true, if_true, Bool.false_eq_true, if_false,
        show jfalsy (JVal.str "") = true from rfl] <;>
    first
      | (simp only [show jfalsy (JVal.str t) = false from by simp [jfalsy, ht],
          Bool.false_eq_true, if_false]
         by_cases hb : jfalsy (jgetD (jgetD (jgetD (jgetD data "event" (.obj []))
             "message" (.obj [])) "content" (.obj [])) "buttons" .null) = true <;>
           simp only [hb, eq_self_iff_true, if_true, Bool.false_eq_true, if_false] <;>
         first
           | rfl
           | (rw [str_append_empty]; rfl))
      | (by_cases hb : jfalsy (jgetD (jgetD (jgetD (jgetD data "event" (.obj []))
             "message" (.obj [])) "content" (.obj [])) "buttons" .null) = true <;>
           simp only [hb, eq_self_iff_true, if_true, Bool.false_eq_true, if_false] <;>
         rfl)

/-- C3 (amended): for every message event with content type text whose
text is a string `t`: if `t` is non-empty the output's message list
contains exactly one primary segment, of kind `"text"` with data equal
to the input text, and if `t` is empty zero primary segments are
produced; `alt_message` equals the text exactly when the message
carries no buttons — when buttons are present the placeholder
`"[按钮]"` is appended to it. -/
theorem text_message_segments (ctx : ConvCtx) (data : JVal) (t : String)
    (hobj : data.isObj = true)
    (hET : jgetD (jgetD data "header" (.obj [])) "eventType" (.str "")
             = .str "message.receive.normal" ∨
           jgetD (jgetD data "header" (.obj [])) "eventType" (.str "")
             = .str "message.receive.instruction")
    (hCT : jgetD (jgetD (jgetD data "event" (.obj [])) "message" (.obj []))
             "contentType" (.str "text") = .str "text")
    (hTX : jgetD (jgetD (jgetD (jgetD data "event" (.obj [])) "message" (.obj []))
             "content" (.obj [])) "text" (.str "") = .str t) :
    ∃ ev, convert ctx data = .ok (some ev) ∧
      primary_segments ev = (if t = "" then [] else [text_segment (.str t)]) ∧
      jget ev "alt_message" = some (.str ((if t = "" then "" else t) ++
        (if jfalsy (jgetD (jgetD (jgetD (jgetD data "event" (.obj []))
            "message" (.obj [])) "content" (.obj [])) "buttons" .null)
         then "" else "[按钮]"))) := by
  rcases hET with hET | hET
  · refine ⟨handle_message_event "message.receive.normal" (jgetD data "event" (.obj []))
        (base_event ctx data (jgetD data "header" (.obj []))), ?_,
        (handle_message_text_fields "message.receive.normal" ctx data t hCT hTX).1,
        (handle_message_text_fields "message.receive.normal" ctx data t hCT hTX).2⟩
    simp only [convert, hobj, if_true, hET]
    rw [if_neg (by decide)]
    rfl
  · refine ⟨handle_message_event "message.receive.instruction" (jgetD data "event" (.obj []))
        (base_event ctx data (jgetD data "header" (.obj []))), ?_,
        (handle_message_text_fields "message.receive.instruction" ctx data t hCT hTX).1,
        (handle_message_text_fields "message.receive.instruction" ctx data t hCT hTX).2⟩
    simp only [convert, hobj, if_true, hET]
    rw [if_neg (by decide)]
    rfl

/-- Witness for the amended C3 at a plain `"hello"` text message with
no buttons. -/
theorem text_message_segments_witness :
    primary_segments (result_event (convert sampleCtx plainTextInput))
      = [text_segment (.str "hello")] ∧
    jget (result_event (convert sampleCtx plainTextInput)) "alt_message"
      = some (.str "hello") := by
  rcases text_message_segments sampleCtx plainTextInput "hello" rfl (Or.inl rfl) rfl rfl
    with ⟨ev, h1, h2, h3⟩
  have hev : result_event (convert sampleCtx plainTextInput) = ev := by
    rw [h1]
    rfl
  constructor
  · rw [hev, h2]
    rfl
  · rw [hev, h3]
    rfl

/-! ### Checkbox value: the enumerate-based comprehension agrees with
positional zip-truncation -/

theorem checkbox_enumFrom (ss : List JVal) :
    ∀ (vs : List JVal) (n : Nat),
    ((List.enumFrom n vs).filter
        (fun p => decide (p.1 < ss.length) && !jfalsy (ss.getD p.1 .null))).map Prod.snd
      = (((ss.drop n).zip vs).filter (fun p => !jfalsy p.1)).map Prod.snd := by
  intro vs
  induction vs with
  | nil =>
    intro n
    simp
  | cons v vs ih =>
    intro n
    rw [List.enumFrom_cons, List.filter_cons]
    by_cases hn : n < ss.length
    · rw [List.drop_eq_getElem_cons hn, List.zip_cons_cons, List.filter_cons]
      simp only [List.getD_eq_getElem ss JVal.null hn, hn, decide_True, Bool.true_and]
      by_cases hC : (!jfalsy ss[n]) = true
      · simp only [hC, eq_self_iff_true, if_true, List.map_cons, ih (n + 1)]
      · simp only [hC, Bool.false_eq_true, if_false, ih (n + 1)]
    · have hle : ss.length ≤ n := Nat.le_of_not_lt hn
      rw [List.drop_eq_nil_of_le hle]
      rw [if_neg (by simp [hn])]
      rw [ih (n + 1)]
      rw [List.drop_eq_nil_of_le (Nat.le_succ_of_le hle)]
      simp

theorem checkbox_selected_eq_zip (ss vs : List JVal) :
    checkbox_selected ss vs
      = ((ss.zip vs).filter (fun p => !jfalsy p.1)).map Prod.snd := by
  have h := checkbox_enumFrom ss vs 0
  rw [List.drop_zero] at h
  exact h

/-- C6: for every checkbox form field, the derived value is the
comma-joined list of the option labels whose corresponding selection
flag is truthy, in original order, pairing the selection list with the
option-label list positionally with zip-like truncation when the
lengths differ. -/
theorem form_checkbox_value (fid : String) (fd : JVal) (ss vs : List JVal)
    (hty : jgetD fd "type" (.str "") = .str "checkbox")
    (hss : jgetD fd "selectStatus" (.arr []) = .arr ss)
    (hvs : jgetD fd "selectValues" (.arr []) = .arr vs) :
    form_field_record (fid, fd)
      = .obj [("id", .str fid), ("type", .str "checkbox"),
              ("label", jgetD fd "label" (.str "")),
              ("value", .str (",".intercalate
                ((((ss.zip vs).filter (fun p => !jfalsy p.1)).map Prod.snd).map
                  jstr_of)))] := by
  simp only [form_field_record, form_field_value, hty, hss, hvs]
  rw [if_neg (show ¬ jstr_eq (JVal.str "checkbox") "input" = true from by decide)]
  rw [if_neg (show ¬ jstr_eq (JVal.str "checkbox") "switch" = true from by decide)]
  rw [if_pos (show jstr_eq (JVal.str "checkbox") "checkbox" = true from by decide)]
  simp only [checkbox_value, checkbox_selected_eq_zip]

/-- Witness for C6 at a four-option checkbox with the first and third
options checked, yielding `"a,c"`. -/
theorem form_checkbox_value_witness :
    jgetD checkboxField "type" (.str "") = .str "checkbox" ∧
    form_field_record ("f1", checkboxField)
      = .obj [("id", .str "f1"), ("type", .str "checkbox"), ("label", .str "L"),
              ("value", .str "a,c")] :=
  ⟨rfl, form_checkbox_value "f1" checkboxField
     [.bool true, .bool false, .bool true]
     [.str "a", .str "b", .str "c", .str "d"] rfl rfl rfl⟩
